import Mathlib

/-!
Shallow embedding of the data pipeline of `src/twilio_analyzer.py`
(lines 96-119: schema check, date parsing, renames, left merge, numeric
coercions; lines 152-157: time-range filter; lines 223-241: aggregation).

Conventions of the embedding:
  * A pandas cell is a `Value`: a non-numeric string, a numeric value
    (ints, floats and numeric strings parsed by `read_csv` are all
    represented as `ℚ`), or a missing value (`NaN`).
  * Timestamps are UTC epoch seconds as `Int`; a calendar date is a day
    number (floored division of local seconds by 86400).
  * The timezone database entry for "US/Mountain" is an abstract
    offset-at-instant function `tzOff : Int → Int` (seconds east of UTC
    at a given UTC instant), exactly the interface `pytz`/`tz_convert`
    consume; theorems quantify over it.
  * `st.error` followed by `st.stop` (line 97-98) is a surfaced halt,
    modelled as `Except.error PipeError.schemaError`; an uncaught Python
    exception is modelled as `Except.error` with `keyError` or
    `attributeError`.
-/

namespace TwilioAnalyzer

/-- A pandas cell: a non-numeric string, a numeric value, or NaN. -/
inductive Value
  | str (s : String)
  | num (q : ℚ)
  | null
deriving DecidableEq, Repr

/-- Elementwise `astype(str)` (lines 108-109).  NaN stringifies to "nan";
the exact rendering of numerics is immaterial to the claims, only that it
is a function of the value. -/
def valueToStr : Value → String
  | .str s => s
  | .num q => toString q
  | .null => "nan"

/-- Elementwise `pd.to_numeric(errors="coerce")` (lines 112-119):
numbers pass through, non-numeric strings and NaN coerce to NaN. -/
def toNumeric : Value → Option ℚ
  | .str _ => none
  | .num q => some q
  | .null => none

/-- numpy `astype(int)` on a float: truncation toward zero.  `Int.tdiv`
on numerator and (positive) denominator is exactly C-style truncation. -/
def truncRat (q : ℚ) : Int := q.num.tdiv (q.den : Int)

/-- A raw `dateSent` cell: a parseable timezone-naive timestamp, a
parseable zoned timestamp (local seconds plus zone offset), or an
unparseable value. -/
inductive RawDate
  | naive (t : Int)
  | zoned (localSec : Int) (off : Int)
  | invalid
deriving DecidableEq, Repr

/-- Elementwise `pd.to_datetime(errors="coerce", utc=True)` (line 102):
naive values are assumed UTC, zoned values are converted to UTC, and
unparseable values become NaT (`none`). -/
def toDatetimeUTC : RawDate → Option Int
  | .naive t => some t
  | .zoned localSec off => some (localSec - off)
  | .invalid => none

/-- Elementwise `.dt.tz_convert(mountain_tz).dt.date` (line 103): shift the
UTC instant by the zone's offset at that instant and floor to a day
number.  NaT propagates. -/
def tzConvertDate (tzOff : Int → Int) (d : Option Int) : Option Int :=
  d.map (fun t => Int.fdiv (t + tzOff t) 86400)

/-- One row of the uploaded Twilio log CSV, with the columns the script
touches.  Column presence is tracked separately in `LogTable`. -/
structure LogRow where
  dateSent : RawDate
  toNumber : Value
  numSegments : Value
  price : Value
  body : String
  status : String
deriving DecidableEq, Repr

/-- The concatenated log table: which of the script-relevant columns are
present, plus the rows. -/
structure LogTable where
  hasDateSent : Bool
  hasTo : Bool
  hasNumSegments : Bool
  hasPrice : Bool
  rows : List LogRow
deriving DecidableEq, Repr

/-- One row of the customer list after `read_excel`: phone number and
customer code (`CO`, possibly NaN).  Extra columns are passed through
untouched and play no role in the claims. -/
structure DirRow where
  number : Value
  co : Option String
deriving DecidableEq, Repr

/-- A directory row after the `Number → PhoneNumber` rename and
`astype(str)` (lines 106, 109). -/
structure DirRowS where
  phoneNumber : String
  co : Option String
deriving DecidableEq, Repr

/-- A log row after date parsing (lines 101-103) and the
`to → PhoneNumber` rename plus `astype(str)` (lines 105, 108). -/
structure PreRow where
  phoneNumber : String
  date : Option Int
  numSegments : Value
  price : Value
  body : String
  status : String
deriving DecidableEq, Repr

/-- One row of `merged_data` after lines 111-119. -/
structure MergedRow where
  phoneNumber : String
  date : Option Int
  co : Option String
  segments : Int
  cost : ℚ
  body : String
  status : String
deriving DecidableEq, Repr

/-- How a pipeline run stops early.  `schemaError` is the surfaced
`st.error`/`st.stop` of lines 97-98; `keyError` and `attributeError` are
uncaught Python exceptions. -/
inductive PipeError
  | schemaError
  | keyError (col : String)
  | attributeError (attr : String)
deriving DecidableEq, Repr

/-- Lines 101-103, 105, 108 applied to one log row. -/
def preRowOf (tzOff : Int → Int) (l : LogRow) : PreRow :=
  { phoneNumber := valueToStr l.toNumber
    date := tzConvertDate tzOff (toDatetimeUTC l.dateSent)
    numSegments := l.numSegments
    price := l.price
    body := l.body
    status := l.status }

/-- Line 111, `pd.merge(message_logs, customer_list, on="PhoneNumber",
how="left")`: every log row is kept; each directory row with an equal
phone-number string contributes one output row; a log row with no match
gets a single output row with null directory columns. -/
def leftJoin (logs : List PreRow) (dir : List DirRowS) :
    List (PreRow × Option String) :=
  logs.flatMap fun l =>
    if (dir.filter fun d => d.phoneNumber = l.phoneNumber).isEmpty then [(l, none)]
    else (dir.filter fun d => d.phoneNumber = l.phoneNumber).map fun d => (l, d.co)

/-- Line 112-115: `pd.to_numeric(col, errors="coerce").fillna(0).astype(int)`. -/
def segmentsOf (v : Value) : Int := truncRat ((toNumeric v).getD 0)

/-- Elementwise `Series.abs()`. -/
def ratAbs (q : ℚ) : ℚ := if q < 0 then -q else q

/-- Line 116-119: `pd.to_numeric(col, errors="coerce").abs().fillna(0)`. -/
def costOf (v : Value) : ℚ := ((toNumeric v).map ratAbs).getD 0

/-- Lines 112-119 applied to one joined row. -/
def finalizeRow (p : PreRow × Option String) : MergedRow :=
  { phoneNumber := p.1.phoneNumber
    date := p.1.date
    co := p.2
    segments := segmentsOf p.1.numSegments
    cost := costOf p.1.price
    body := p.1.body
    status := p.1.status }

/-- Lines 96-119 end to end.  The error branches fire in source order:
the `dateSent` schema check halts via `st.error`/`st.stop` (lines 96-98);
if `to` is absent the rename at line 105 is a silent no-op and the column
read `message_logs["PhoneNumber"]` at line 108 raises `KeyError`; if
`numSegments` is absent, `merged_data.get("numSegments", 0)` at line 113
yields the scalar `0`, `pd.to_numeric` returns a scalar, and the chained
`.fillna` at line 115 raises `AttributeError`; likewise an absent `price`
yields a scalar whose chained `.abs()` at line 119 raises
`AttributeError`. -/
def preprocess (tzOff : Int → Int) (logs : LogTable) (dir : List DirRow) :
    Except PipeError (List MergedRow) :=
  if logs.hasDateSent = false then .error .schemaError
  else if logs.hasTo = false then .error (.keyError "PhoneNumber")
  else if logs.hasNumSegments = false then .error (.attributeError "fillna")
  else if logs.hasPrice = false then .error (.attributeError "abs")
  else
    let pre := logs.rows.map (preRowOf tzOff)
    let dirS := dir.map fun d => DirRowS.mk (valueToStr d.number) d.co
    .ok ((leftJoin pre dirS).map finalizeRow)

/-- Line 153: `merged_data[merged_data["date"] == yesterday]`.  A NaT
date compares unequal to every date, so rows with a null date are
filtered out here. -/
def filterByDate (d : Int) (ms : List MergedRow) : List MergedRow :=
  ms.filter fun r => r.date = some d

/-- Line 248: `filtered_data[filtered_data["CO"] == selected_customer]`. -/
def filterByCustomer (c : String) (ms : List MergedRow) : List MergedRow :=
  ms.filter fun r => r.co = some c

/-- Distinct group keys in pandas `groupby`/`pivot_table` order
(`sort=True` is the default): deduplicated, then sorted by `r`. -/
def sortKeys {α : Type} [DecidableEq α] (r : α → α → Prop) [DecidableRel r]
    (l : List α) : List α :=
  l.dedup.insertionSort r

/-- The distinct customer codes of a merged table, sorted; `groupby("CO")`
and `pivot_table(index="CO")` both drop rows whose `CO` is NaN. -/
def coKeys (f : List MergedRow) : List String :=
  sortKeys (fun a b => a ≤ b) (f.filterMap fun r => r.co)

/-- Line 223: `filtered_data.groupby("CO").size()`. -/
def totalMessages (f : List MergedRow) : List (String × Nat) :=
  (coKeys f).map fun c => (c, (f.filter fun r => r.co = some c).length)

/-- The distinct `numSegments` values that become pivot columns (lines
224-231): values occurring in rows with a non-null `CO` (rows with NaN
index keys are dropped by `pivot_table` before columns form). -/
def segKeys (f : List MergedRow) : List Int :=
  sortKeys (fun a b => a ≤ b)
    ((f.filter fun r => r.co.isSome).map fun r => r.segments)

/-- Lines 224-231: `pd.pivot_table(filtered_data, values="PhoneNumber",
index="CO", columns="numSegments", aggfunc="count", fill_value=0)`.
`PhoneNumber` is a string column (never NaN after `astype(str)`), so the
count of a (CO, segments) cell is the number of rows in that group, and
missing combinations fill with 0. -/
def pivotSegments (f : List MergedRow) : List (String × List (Int × Nat)) :=
  (coKeys f).map fun c =>
    (c, (segKeys f).map fun s =>
      (s, (f.filter fun r => r.co = some c ∧ r.segments = s).length))

/-- Line 236: `filtered_data.groupby("CO")["price"].sum()`. -/
def totalCost (f : List MergedRow) : List (String × ℚ) :=
  (coKeys f).map fun c =>
    (c, ((f.filter fun r => r.co = some c).map fun r => r.cost).sum)

/-- Keyed lookup used by `pd.merge(..., on="CO")`: the first row of the
right table whose key equals `c`. -/
def lookupBy {α : Type} (t : List (String × α)) (c : String) : Option α :=
  (t.find? fun p => p.1 = c).map fun p => p.2

/-- One row of the combined customer summary table (line 238): an
outer-join row holds each sub-aggregate's columns as `Option`, `none`
where the outer join found no row with that key. -/
structure CombinedRow where
  co : String
  total : Option Nat
  segCounts : Option (List (Int × Nat))
  cost : Option ℚ
deriving DecidableEq, Repr

/-- Key column of an outer merge: the union of both key columns, sorted
(pandas sorts the join key on `how="outer"`). -/
def outerKeys (a b : List String) : List String :=
  sortKeys (fun x y => x ≤ y) (a ++ b)

/-- Line 238: `total_messages.merge(pivot_segments, on="CO",
how="outer").merge(total_cost, on="CO", how="outer")`. -/
def combinedTable (f : List MergedRow) : List CombinedRow :=
  let tm := totalMessages f
  let pv := pivotSegments f
  let tc := totalCost f
  let keys := outerKeys (outerKeys (tm.map fun p => p.1) (pv.map fun p => p.1))
    (tc.map fun p => p.1)
  keys.map fun c => ⟨c, lookupBy tm c, lookupBy pv c, lookupBy tc c⟩

/-- Lexicographic order on (date, segments) group keys. -/
def dateIntLe (p q : Int × Int) : Prop :=
  p.1 < q.1 ∨ (p.1 = q.1 ∧ p.2 ≤ q.2)

instance : DecidableRel dateIntLe := fun p q => by
  unfold dateIntLe; infer_instance

/-- Lexicographic order on (date, string) group keys. -/
def dateStrLe (p q : Int × String) : Prop :=
  p.1 < q.1 ∨ (p.1 = q.1 ∧ p.2 ≤ q.2)

instance : DecidableRel dateStrLe := fun p q => by
  unfold dateStrLe; infer_instance

/-- Lines 171-175: `filtered_data.groupby(["date", "numSegments"]).size()`;
`groupby` drops rows whose date is NaT. -/
def segmentDateData (f : List MergedRow) : List ((Int × Int) × Nat) :=
  (sortKeys dateIntLe
      ((f.filter fun r => r.date.isSome).map fun r => (r.date.getD 0, r.segments))).map
    fun k => (k, (f.filter fun r => r.date = some k.1 ∧ r.segments = k.2).length)

/-- Lines 189-193: `filtered_data.groupby(["date", "status"]).size()`. -/
def statusDateData (f : List MergedRow) : List ((Int × String) × Nat) :=
  (sortKeys dateStrLe
      ((f.filter fun r => r.date.isSome).map fun r => (r.date.getD 0, r.status))).map
    fun k => (k, (f.filter fun r => r.date = some k.1 ∧ r.status = k.2).length)

/-- Lines 206-210: `filtered_data.groupby(["date", "CO"]).size()`;
rows with a NaT date or NaN CO are dropped by `groupby`. -/
def messagesByCustomerData (f : List MergedRow) : List ((Int × String) × Nat) :=
  (sortKeys dateStrLe
      ((f.filter fun r => r.date.isSome ∧ r.co.isSome).map
        fun r => (r.date.getD 0, (r.co.getD "")))).map
    fun k => (k, (f.filter fun r => r.date = some k.1 ∧ r.co = some k.2).length)

/-! ## Lemmas about the left join and the pipeline -/

/-- Directory lookup realized by a left join with unique keys: the first
matching directory row's customer code. -/
def coLookup (dir : List DirRowS) (k : String) : Option String :=
  (dir.find? fun d => d.phoneNumber = k).bind fun d => d.co

theorem find?_eq_none_of_filter_nil {p : DirRowS → Bool} {l : List DirRowS}
    (h : l.filter p = []) : l.find? p = none := by
  rw [List.find?_eq_none]
  exact List.filter_eq_nil_iff.mp h

theorem find?_eq_some_of_filter_singleton {p : DirRowS → Bool} {l : List DirRowS}
    {d : DirRowS} (h : l.filter p = [d]) : l.find? p = some d := by
  induction l with
  | nil => simp at h
  | cons a t ih =>
    by_cases hpa : p a = true
    · rw [List.filter_cons_of_pos hpa] at h
      obtain ⟨rfl, -⟩ := List.cons_eq_cons.mp h
      exact List.find?_cons_of_pos _ hpa
    · rw [List.filter_cons_of_neg hpa] at h
      rw [List.find?_cons_of_neg _ hpa]
      exact ih h

/-- With pairwise-distinct keys, each key's filter is empty or a singleton. -/
theorem filter_key_cases (dir : List DirRowS)
    (hnd : (dir.map fun d => d.phoneNumber).Nodup) (k : String) :
    dir.filter (fun d => d.phoneNumber = k) = [] ∨
      ∃ d, dir.filter (fun d => d.phoneNumber = k) = [d] := by
  induction dir with
  | nil => exact Or.inl rfl
  | cons a t ih =>
    rw [List.map_cons, List.nodup_cons] at hnd
    by_cases hak : a.phoneNumber = k
    · right
      refine ⟨a, ?_⟩
      rw [List.filter_cons_of_pos (by simpa using hak)]
      have ht : t.filter (fun d => d.phoneNumber = k) = [] := by
        rw [List.filter_eq_nil_iff]
        intro d hd
        simp only [decide_eq_true_eq]
        intro hdk
        apply hnd.1
        rw [hak, ← hdk]
        exact List.mem_map_of_mem (fun d => d.phoneNumber) hd
      rw [ht]
    · rw [List.filter_cons_of_neg (by simpa using hak)]
      exact ih hnd.2

/-- Under unique directory keys the left join is exactly one output row
per input row, in order, with the looked-up customer code. -/
theorem leftJoin_eq_map_of_nodup (logs : List PreRow) (dir : List DirRowS)
    (hnd : (dir.map fun d => d.phoneNumber).Nodup) :
    leftJoin logs dir = logs.map fun l => (l, coLookup dir l.phoneNumber) := by
  induction logs with
  | nil => rfl
  | cons l t ih =>
    rw [leftJoin, List.flatMap_cons, ← leftJoin, ih, List.map_cons]
    rcases filter_key_cases dir hnd l.phoneNumber with hnil | ⟨d, hd⟩
    · rw [coLookup, find?_eq_none_of_filter_nil hnil, hnil]
      rfl
    · rw [coLookup, find?_eq_some_of_filter_singleton hd, hd]
      rfl

/-- Every output row of the left join carries one of the input rows. -/
theorem leftJoin_mem_src {logs : List PreRow} {dir : List DirRowS}
    {pc : PreRow × Option String} (h : pc ∈ leftJoin logs dir) : pc.1 ∈ logs := by
  rw [leftJoin, List.mem_flatMap] at h
  obtain ⟨l, hl, hpc⟩ := h
  by_cases he : (dir.filter fun d => d.phoneNumber = l.phoneNumber).isEmpty = true
  · rw [if_pos he, List.mem_singleton] at hpc
    rw [hpc]
    exact hl
  · rw [if_neg he, List.mem_map] at hpc
    obtain ⟨d, -, hd⟩ := hpc
    rw [← hd]
    exact hl

/-- An output row whose phone number matches no directory row has a null
customer code. -/
theorem leftJoin_unmatched {logs : List PreRow} {dir : List DirRowS}
    {pc : PreRow × Option String} (h : pc ∈ leftJoin logs dir)
    (hno : ∀ d ∈ dir, d.phoneNumber ≠ pc.1.phoneNumber) : pc.2 = none := by
  rw [leftJoin, List.mem_flatMap] at h
  obtain ⟨l, hl, hpc⟩ := h
  have hl1 : pc.1 = l := by
    by_cases he : (dir.filter fun d => d.phoneNumber = l.phoneNumber).isEmpty = true
    · rw [if_pos he, List.mem_singleton] at hpc
      rw [hpc]
    · rw [if_neg he, List.mem_map] at hpc
      obtain ⟨d, -, hd⟩ := hpc
      rw [← hd]
  have hfil : (dir.filter fun d => d.phoneNumber = l.phoneNumber) = [] := by
    rw [List.filter_eq_nil_iff]
    intro d hd
    simp only [decide_eq_true_eq]
    intro hdk
    exact hno d hd (by rw [hl1, ← hdk])
  rw [if_pos (by rw [hfil]; rfl), List.mem_singleton] at hpc
  rw [hpc]

/-- The standardized directory table built at lines 106 and 109. -/
def dirS (dir : List DirRow) : List DirRowS :=
  dir.map fun d => DirRowS.mk (valueToStr d.number) d.co

/-- When the four script-relevant columns are present the pipeline
succeeds with the finalized left join. -/
theorem preprocess_ok (tzOff : Int → Int) (logs : LogTable) (dir : List DirRow)
    (h1 : logs.hasDateSent = true) (h2 : logs.hasTo = true)
    (h3 : logs.hasNumSegments = true) (h4 : logs.hasPrice = true) :
    preprocess tzOff logs dir =
      .ok ((leftJoin (logs.rows.map (preRowOf tzOff)) (dirS dir)).map finalizeRow) := by
  simp [preprocess, h1, h2, h3, h4, dirS]

/-- With unique directory keys the pipeline output is one merged row per
log row, in order. -/
theorem preprocess_ok_nodup (tzOff : Int → Int) (logs : LogTable) (dir : List DirRow)
    (h1 : logs.hasDateSent = true) (h2 : logs.hasTo = true)
    (h3 : logs.hasNumSegments = true) (h4 : logs.hasPrice = true)
    (hnd : (dir.map fun d => valueToStr d.number).Nodup) :
    preprocess tzOff logs dir =
      .ok (logs.rows.map fun l =>
        finalizeRow (preRowOf tzOff l, coLookup (dirS dir) (valueToStr l.toNumber))) := by
  rw [preprocess_ok tzOff logs dir h1 h2 h3 h4]
  rw [leftJoin_eq_map_of_nodup _ _ (by simpa [dirS, List.map_map, Function.comp] using hnd)]
  rw [List.map_map, List.map_map]
  exact congrArg Except.ok (List.map_congr_left fun l _ => rfl)

/-! ## Lemmas about group keys and the outer merge -/

section SortKeysLemmas

variable {α : Type} [DecidableEq α] (r : α → α → Prop) [DecidableRel r]

theorem sortKeys_sorted [IsTotal α r] [IsTrans α r] (l : List α) :
    (sortKeys r l).Sorted r :=
  List.sorted_insertionSort r l.dedup

theorem sortKeys_nodup (l : List α) : (sortKeys r l).Nodup :=
  (List.perm_insertionSort r l.dedup).symm.nodup (List.nodup_dedup l)

theorem mem_sortKeys {a : α} {l : List α} : a ∈ sortKeys r l ↔ a ∈ l := by
  rw [sortKeys, (List.perm_insertionSort r l.dedup).mem_iff]
  exact List.mem_dedup

theorem sortKeys_congr [IsTotal α r] [IsTrans α r] [IsAntisymm α r]
    {l₁ l₂ : List α} (h : ∀ a, a ∈ l₁ ↔ a ∈ l₂) :
    sortKeys r l₁ = sortKeys r l₂ := by
  apply List.eq_of_perm_of_sorted _ (sortKeys_sorted r l₁) (sortKeys_sorted r l₂)
  rw [List.perm_ext_iff_of_nodup (sortKeys_nodup r l₁) (sortKeys_nodup r l₂)]
  intro a
  rw [mem_sortKeys, mem_sortKeys]
  exact h a

theorem sortKeys_eq_self [IsTotal α r] [IsTrans α r] [IsAntisymm α r]
    {l : List α} (hnd : l.Nodup) (hs : l.Sorted r) :
    sortKeys r l = l := by
  rw [sortKeys, hnd.dedup]
  exact List.eq_of_perm_of_sorted (List.perm_insertionSort r l)
    (List.sorted_insertionSort r l) hs

theorem sortKeys_append_self [IsTotal α r] [IsTrans α r] [IsAntisymm α r]
    (l : List α) :
    sortKeys r (sortKeys r l ++ sortKeys r l) = sortKeys r l := by
  have h1 : sortKeys r (sortKeys r l ++ sortKeys r l) = sortKeys r (sortKeys r l) :=
    sortKeys_congr r fun a => by rw [List.mem_append]; tauto
  rw [h1, sortKeys_eq_self r (sortKeys_nodup r l) (sortKeys_sorted r l)]

end SortKeysLemmas

theorem lookupBy_map_self {α : Type} {g : String → α} {ks : List String} {c : String}
    (hc : c ∈ ks) : lookupBy (ks.map fun k => (k, g k)) c = some (g c) := by
  induction ks with
  | nil => cases hc
  | cons k t ih =>
    by_cases hkc : k = c
    · subst hkc
      rw [List.map_cons, lookupBy, List.find?_cons_of_pos _ (by simp)]
      rfl
    · rw [List.map_cons, lookupBy, List.find?_cons_of_neg _ (by simp [hkc])]
      rcases List.mem_cons.mp hc with h | h
      · exact absurd h.symm hkc
      · exact ih h

theorem map_fst_map_pair {α : Type} (g : String → α) (ks : List String) :
    (ks.map fun k => (k, g k)).map (fun p => p.1) = ks := by
  induction ks with
  | nil => rfl
  | cons k t ih => rw [List.map_cons, List.map_cons, ih]

theorem totalMessages_keys (f : List MergedRow) :
    (totalMessages f).map (fun p => p.1) = coKeys f :=
  map_fst_map_pair _ _

theorem pivotSegments_keys (f : List MergedRow) :
    (pivotSegments f).map (fun p => p.1) = coKeys f :=
  map_fst_map_pair _ _

theorem totalCost_keys (f : List MergedRow) :
    (totalCost f).map (fun p => p.1) = coKeys f :=
  map_fst_map_pair _ _

theorem outerKeys_coKeys_self (f : List MergedRow) :
    outerKeys (coKeys f) (coKeys f) = coKeys f :=
  sortKeys_append_self _ _

theorem costOf_nonneg (v : Value) : 0 ≤ costOf v := by
  rw [costOf]
  cases h : toNumeric v with
  | none => exact le_refl 0
  | some q =>
    show 0 ≤ ratAbs q
    by_cases hq : q < 0
    · rw [ratAbs, if_pos hq]
      linarith
    · rw [ratAbs, if_neg hq]
      exact not_lt.mp hq

/-! ## Concrete data used by witnesses and counterexamples -/

/-- The fixed US/Mountain standard offset (UTC-7, in seconds), a concrete
instantiation of the abstract timezone-offset function. -/
def mtnOff : Int → Int := fun _ => -25200

/-- A concrete log row: 2024-01-05T10:00:00Z, two segments, price
-0.0075. -/
def wRow : LogRow :=
  ⟨.naive 1704448800, .str "5551234567", .num 2, .num (mkRat (-3) 400),
    "ALARM: door open", "delivered"⟩

/-- A concrete one-row log table with all four relevant columns. -/
def wLogs : LogTable := ⟨true, true, true, true, [wRow]⟩

/-- A concrete one-row directory. -/
def wDir : List DirRow := [⟨.str "5551234567", some "VITAL"⟩]

/-! ## The claims -/

/-- Claim C1: for every log table and every directory whose phone-number
strings are unique, the left join at line 111 produces exactly one merged
row per log row (merged row count equals the log row count), the customer
code is null for log rows with no directory match, and the pipeline
succeeds (no join failure for unmatched rows). -/
theorem left_join_preserves_log_rows (tzOff : Int → Int) (logs : LogTable)
    (dir : List DirRow) (h1 : logs.hasDateSent = true) (h2 : logs.hasTo = true)
    (h3 : logs.hasNumSegments = true) (h4 : logs.hasPrice = true)
    (hnd : (dir.map fun d => valueToStr d.number).Nodup) :
    ∃ ms, preprocess tzOff logs dir = .ok ms ∧
      ms.length = logs.rows.length ∧
      ∀ r ∈ ms, (∀ d ∈ dir, valueToStr d.number ≠ r.phoneNumber) → r.co = none := by
  refine ⟨_, preprocess_ok_nodup tzOff logs dir h1 h2 h3 h4 hnd,
    by rw [List.length_map], ?_⟩
  intro r hr hno
  rw [List.mem_map] at hr
  obtain ⟨l, hl, hrl⟩ := hr
  have hfind : (dirS dir).find? (fun d => d.phoneNumber = valueToStr l.toNumber)
      = none := by
    rw [List.find?_eq_none]
    intro x hx
    rw [dirS, List.mem_map] at hx
    obtain ⟨d, hd, hxd⟩ := hx
    simp only [decide_eq_true_eq]
    intro heq
    apply hno d hd
    rw [← hrl]
    rw [← hxd] at heq
    exact heq
  rw [← hrl]
  show coLookup (dirS dir) (valueToStr l.toNumber) = none
  rw [coLookup, hfind]
  rfl

theorem left_join_preserves_log_rows_witness :
    wLogs.hasDateSent = true ∧ wLogs.hasTo = true ∧ wLogs.hasNumSegments = true ∧
    wLogs.hasPrice = true ∧ (wDir.map fun d => valueToStr d.number).Nodup ∧
    ∃ ms, preprocess mtnOff wLogs wDir = .ok ms ∧
      ms.length = wLogs.rows.length ∧
      ∀ r ∈ ms, (∀ d ∈ wDir, valueToStr d.number ≠ r.phoneNumber) → r.co = none :=
  ⟨rfl, rfl, rfl, rfl, by decide,
    left_join_preserves_log_rows mtnOff wLogs wDir rfl rfl rfl rfl (by decide)⟩

/-- Claim C2: every merged row's `segments` is its source row's
`numSegments` coerced to numeric (missing/non-numeric becomes 0) and
truncated to an integer, and its `cost` is the absolute value of the
source `price` (missing/non-numeric becomes 0). -/
theorem segments_cost_derived_per_row (tzOff : Int → Int) (logs : LogTable)
    (dir : List DirRow) (h1 : logs.hasDateSent = true) (h2 : logs.hasTo = true)
    (h3 : logs.hasNumSegments = true) (h4 : logs.hasPrice = true) :
    ∃ ms, preprocess tzOff logs dir = .ok ms ∧
      ∀ r ∈ ms, ∃ l ∈ logs.rows,
        r.phoneNumber = valueToStr l.toNumber ∧ r.body = l.body ∧
        r.status = l.status ∧
        r.segments = truncRat ((toNumeric l.numSegments).getD 0) ∧
        r.cost = ((toNumeric l.price).map ratAbs).getD 0 := by
  refine ⟨_, preprocess_ok tzOff logs dir h1 h2 h3 h4, ?_⟩
  intro r hr
  rw [List.mem_map] at hr
  obtain ⟨pc, hpc, hrpc⟩ := hr
  obtain ⟨p, c⟩ := pc
  have hsrc := leftJoin_mem_src hpc
  rw [List.mem_map] at hsrc
  obtain ⟨l, hl, hlp⟩ := hsrc
  have hlp' : preRowOf tzOff l = p := hlp
  subst hlp'
  subst hrpc
  exact ⟨l, hl, rfl, rfl, rfl, rfl, rfl⟩

theorem segments_cost_derived_per_row_witness :
    wLogs.hasDateSent = true ∧ wLogs.hasTo = true ∧ wLogs.hasNumSegments = true ∧
    wLogs.hasPrice = true ∧
    ∃ ms, preprocess mtnOff wLogs wDir = .ok ms ∧
      ∀ r ∈ ms, ∃ l ∈ wLogs.rows,
        r.phoneNumber = valueToStr l.toNumber ∧ r.body = l.body ∧
        r.status = l.status ∧
        r.segments = truncRat ((toNumeric l.numSegments).getD 0) ∧
        r.cost = ((toNumeric l.price).map ratAbs).getD 0 :=
  ⟨rfl, rfl, rfl, rfl,
    segments_cost_derived_per_row mtnOff wLogs wDir rfl rfl rfl rfl⟩

/-- Claim C3 counterexample: a log row whose source `numSegments` is the
number -2 yields a merged `segments` of -2, a negative value, because
line 112-115 applies no absolute value to `numSegments`.  This refutes
"the segments value is a non-negative integer ... regardless of the sign
of the source". -/
theorem negative_segments_counterexample :
    preprocess mtnOff
        ⟨true, true, true, true,
          [⟨.naive 0, .str "5550000000", .num (-2), .null, "b", "queued"⟩]⟩ []
      = .ok [⟨"5550000000", some (-1), none, -2, 0, "b", "queued"⟩]
    ∧ (-2 : Int) < 0 :=
  ⟨rfl, by decide⟩

/-- Claim C3 as amended: after normalization `segments` is always an
integer and `cost` always a number (neither is ever null, by
construction), and `cost` is never negative; but `segments` can be
negative when the source segment count is negative. -/
theorem cost_nonneg_after_normalization (tzOff : Int → Int) (logs : LogTable)
    (dir : List DirRow) (h1 : logs.hasDateSent = true) (h2 : logs.hasTo = true)
    (h3 : logs.hasNumSegments = true) (h4 : logs.hasPrice = true) :
    ∃ ms, preprocess tzOff logs dir = .ok ms ∧ ∀ r ∈ ms, 0 ≤ r.cost := by
  refine ⟨_, preprocess_ok tzOff logs dir h1 h2 h3 h4, ?_⟩
  intro r hr
  rw [List.mem_map] at hr
  obtain ⟨pc, -, hrpc⟩ := hr
  rw [← hrpc]
  exact costOf_nonneg pc.1.price

theorem cost_nonneg_after_normalization_witness :
    wLogs.hasDateSent = true ∧ wLogs.hasTo = true ∧ wLogs.hasNumSegments = true ∧
    wLogs.hasPrice = true ∧
    ∃ ms, preprocess mtnOff wLogs wDir = .ok ms ∧ ∀ r ∈ ms, 0 ≤ r.cost :=
  ⟨rfl, rfl, rfl, rfl,
    cost_nonneg_after_normalization mtnOff wLogs wDir rfl rfl rfl rfl⟩

/-- Claim C4: for every log row, the merged `date` equals the send
timestamp parsed with unzoned values assumed UTC (`toDatetimeUTC`),
shifted by the US/Mountain offset at that instant, and floored to a
calendar-day number — only the day number survives. -/
theorem date_mountain_truncation (tzOff : Int → Int) (logs : LogTable)
    (dir : List DirRow) (h1 : logs.hasDateSent = true) (h2 : logs.hasTo = true)
    (h3 : logs.hasNumSegments = true) (h4 : logs.hasPrice = true)
    (hnd : (dir.map fun d => valueToStr d.number).Nodup) :
    ∃ ms, preprocess tzOff logs dir = .ok ms ∧
      ms.map (fun r => r.date) = logs.rows.map fun l =>
        (toDatetimeUTC l.dateSent).map fun t => Int.fdiv (t + tzOff t) 86400 := by
  refine ⟨_, preprocess_ok_nodup tzOff logs dir h1 h2 h3 h4 hnd, ?_⟩
  rw [List.map_map]
  exact List.map_congr_left fun l _ => rfl

theorem date_mountain_truncation_witness :
    wLogs.hasDateSent = true ∧ wLogs.hasTo = true ∧ wLogs.hasNumSegments = true ∧
    wLogs.hasPrice = true ∧ (wDir.map fun d => valueToStr d.number).Nodup ∧
    ∃ ms, preprocess mtnOff wLogs wDir = .ok ms ∧
      ms.map (fun r => r.date) = wLogs.rows.map fun l =>
        (toDatetimeUTC l.dateSent).map fun t => Int.fdiv (t + mtnOff t) 86400 :=
  ⟨rfl, rfl, rfl, rfl, by decide,
    date_mountain_truncation mtnOff wLogs wDir rfl rfl rfl rfl (by decide)⟩

/-- Claim C5 counterexample: a log table whose single row has an
unparseable timestamp is processed without error and the affected row is
RETAINED in the output (with a null date) — it is not excluded, and no
count/warning of excluded rows exists in the pipeline.  This refutes "the
affected rows are excluded from the output with a user-visible
count/warning". -/
theorem invalid_date_row_retained_counterexample :
    preprocess mtnOff
        ⟨true, true, true, true,
          [⟨.invalid, .str "5551112222", .num 1, .num (mkRat 1 100), "hello", "sent"⟩]⟩ []
      = .ok [⟨"5551112222", none, none, 1, mkRat 1 100, "hello", "sent"⟩] :=
  rfl

/-- Claim C5 as amended: rows with unparseable send timestamps do not
make normalization throw; they are retained in the output with a null
date (`errors="coerce"` at line 102), with no exclusion and no warning,
and processing continues. -/
theorem invalid_date_rows_retained (tzOff : Int → Int) (logs : LogTable)
    (dir : List DirRow) (h1 : logs.hasDateSent = true) (h2 : logs.hasTo = true)
    (h3 : logs.hasNumSegments = true) (h4 : logs.hasPrice = true)
    (hnd : (dir.map fun d => valueToStr d.number).Nodup) :
    ∃ ms, preprocess tzOff logs dir = .ok ms ∧
      ms.length = logs.rows.length ∧
      ∀ r ∈ ms, ∃ l ∈ logs.rows, r.body = l.body ∧
        (toDatetimeUTC l.dateSent = none → r.date = none) := by
  refine ⟨_, preprocess_ok_nodup tzOff logs dir h1 h2 h3 h4 hnd,
    by rw [List.length_map], ?_⟩
  intro r hr
  rw [List.mem_map] at hr
  obtain ⟨l, hl, hrl⟩ := hr
  subst hrl
  refine ⟨l, hl, rfl, ?_⟩
  intro hnone
  show tzConvertDate tzOff (toDatetimeUTC l.dateSent) = none
  rw [hnone]
  rfl

theorem invalid_date_rows_retained_witness :
    wLogs.hasDateSent = true ∧ wLogs.hasTo = true ∧ wLogs.hasNumSegments = true ∧
    wLogs.hasPrice = true ∧ (wDir.map fun d => valueToStr d.number).Nodup ∧
    ∃ ms, preprocess mtnOff wLogs wDir = .ok ms ∧
      ms.length = wLogs.rows.length ∧
      ∀ r ∈ ms, ∃ l ∈ wLogs.rows, r.body = l.body ∧
        (toDatetimeUTC l.dateSent = none → r.date = none) :=
  ⟨rfl, rfl, rfl, rfl, by decide,
    invalid_date_rows_retained mtnOff wLogs wDir rfl rfl rfl rfl (by decide)⟩

/-- Claim C6: when the `dateSent` column is absent the pipeline halts
with the surfaced schema error of lines 96-98 before any merging or
aggregation; it never skips the check. -/
theorem missing_dateSent_halts (tzOff : Int → Int) (logs : LogTable)
    (dir : List DirRow) (h : logs.hasDateSent = false) :
    preprocess tzOff logs dir = .error .schemaError := by
  simp [preprocess, h]

theorem missing_dateSent_halts_witness :
    (⟨false, true, true, true, [wRow]⟩ : LogTable).hasDateSent = false ∧
    preprocess mtnOff ⟨false, true, true, true, [wRow]⟩ wDir = .error .schemaError :=
  ⟨rfl, missing_dateSent_halts mtnOff ⟨false, true, true, true, [wRow]⟩ wDir rfl⟩

/-- Claim C7 counterexample: on a log table with `dateSent` present but
`to` absent, the pipeline fails with the uncaught `KeyError` of line 108
(the rename at line 105 is a silent no-op, and only `dateSent` is
schema-checked), not with the surfaced schema error.  This refutes "fails
with a SchemaError ... rather than ... failing with an uncaught
programming error". -/
theorem missing_to_counterexample :
    preprocess mtnOff
        ⟨true, false, true, true, [⟨.naive 0, .null, .num 1, .num 1, "b", "sent"⟩]⟩ []
      = .error (.keyError "PhoneNumber")
    ∧ PipeError.keyError "PhoneNumber" ≠ PipeError.schemaError :=
  ⟨rfl, by decide⟩

/-- Claim C7 as amended: when the `to` column is absent (and `dateSent`
is present) the pipeline fails with an uncaught `KeyError` on the column
read `message_logs["PhoneNumber"]` at line 108 — a programming error, not
a surfaced schema error; only `dateSent` is schema-checked. -/
theorem missing_to_raises_keyerror (tzOff : Int → Int) (logs : LogTable)
    (dir : List DirRow) (h1 : logs.hasDateSent = true) (h2 : logs.hasTo = false) :
    preprocess tzOff logs dir = .error (.keyError "PhoneNumber") := by
  simp [preprocess, h1, h2]

theorem missing_to_raises_keyerror_witness :
    (⟨true, false, true, true, [wRow]⟩ : LogTable).hasDateSent = true ∧
    (⟨true, false, true, true, [wRow]⟩ : LogTable).hasTo = false ∧
    preprocess mtnOff ⟨true, false, true, true, [wRow]⟩ wDir
      = .error (.keyError "PhoneNumber") :=
  ⟨rfl, rfl,
    missing_to_raises_keyerror mtnOff ⟨true, false, true, true, [wRow]⟩ wDir rfl rfl⟩

/-- Claim C8: the combined customer summary (line 238) is the outer join
on customer code of the per-customer row counts, the pivoted
per-(customer, segments) counts, and the per-customer cost sums; all
three sub-aggregates and the combined table share exactly the key list
`coKeys f` (so a customer present in any sub-aggregate appears in the
combined table), every combined row carries all three aggregates
(no missing value survives), and missing (customer, segment)
combinations appear as explicit 0 counts. -/
theorem combined_summary_outer_join (f : List MergedRow) :
    combinedTable f = ((coKeys f).map fun c =>
      ⟨c, some ((f.filter fun r => r.co = some c).length),
          some ((segKeys f).map fun s =>
            (s, (f.filter fun r => r.co = some c ∧ r.segments = s).length)),
          some (((f.filter fun r => r.co = some c).map fun r => r.cost).sum)⟩)
    ∧ (totalMessages f).map (fun p => p.1) = coKeys f
    ∧ (pivotSegments f).map (fun p => p.1) = coKeys f
    ∧ (totalCost f).map (fun p => p.1) = coKeys f
    ∧ (combinedTable f).map (fun row => row.co) = coKeys f := by
  have hmain : combinedTable f = ((coKeys f).map fun c =>
      (⟨c, some ((f.filter fun r => r.co = some c).length),
          some ((segKeys f).map fun s =>
            (s, (f.filter fun r => r.co = some c ∧ r.segments = s).length)),
          some (((f.filter fun r => r.co = some c).map fun r => r.cost).sum)⟩ :
        CombinedRow)) := by
    simp only [combinedTable]
    rw [totalMessages_keys, pivotSegments_keys, totalCost_keys,
      outerKeys_coKeys_self, outerKeys_coKeys_self]
    apply List.map_congr_left
    intro c hc
    simp only [totalMessages, pivotSegments, totalCost]
    rw [lookupBy_map_self hc, lookupBy_map_self hc, lookupBy_map_self hc]
  refine ⟨hmain, totalMessages_keys f, pivotSegments_keys f, totalCost_keys f, ?_⟩
  rw [hmain, List.map_map]
  have hid : ((coKeys f).map fun c => c) = coKeys f := List.map_id' (coKeys f)
  calc ((coKeys f).map _) = (coKeys f).map fun c => c :=
        List.map_congr_left fun c _ => rfl
    _ = coKeys f := hid

/-- Claim C9: when the date filter (line 153) or the customer filter
(line 248) yields an empty merged table, every aggregation — grouped
counts, segment pivot, cost sums, the combined summary, and the chart
group-bys — returns an empty result, and none of them can fail (each is
a total function). -/
theorem empty_filter_empty_aggregates (ms : List MergedRow) (d : Int) (c : String)
    (hd : filterByDate d ms = []) (hc : filterByCustomer c ms = []) :
    totalMessages (filterByDate d ms) = [] ∧
    pivotSegments (filterByDate d ms) = [] ∧
    totalCost (filterByDate d ms) = [] ∧
    combinedTable (filterByDate d ms) = [] ∧
    segmentDateData (filterByDate d ms) = [] ∧
    statusDateData (filterByDate d ms) = [] ∧
    messagesByCustomerData (filterByDate d ms) = [] ∧
    totalMessages (filterByCustomer c ms) = [] ∧
    pivotSegments (filterByCustomer c ms) = [] ∧
    totalCost (filterByCustomer c ms) = [] ∧
    combinedTable (filterByCustomer c ms) = [] := by
  rw [hd, hc]
  exact ⟨rfl, rfl, rfl, rfl, rfl, rfl, rfl, rfl, rfl, rfl, rfl⟩

theorem empty_filter_empty_aggregates_witness :
    filterByDate 3 [⟨"5551234567", some 19727, some "VITAL", 2, 0, "b", "sent"⟩] = [] ∧
    filterByCustomer "ACME"
        [⟨"5551234567", some 19727, some "VITAL", 2, 0, "b", "sent"⟩] = [] ∧
    (totalMessages (filterByDate 3
        [⟨"5551234567", some 19727, some "VITAL", 2, 0, "b", "sent"⟩]) = [] ∧
      pivotSegments (filterByDate 3
        [⟨"5551234567", some 19727, some "VITAL", 2, 0, "b", "sent"⟩]) = [] ∧
      totalCost (filterByDate 3
        [⟨"5551234567", some 19727, some "VITAL", 2, 0, "b", "sent"⟩]) = [] ∧
      combinedTable (filterByDate 3
        [⟨"5551234567", some 19727, some "VITAL", 2, 0, "b", "sent"⟩]) = [] ∧
      segmentDateData (filterByDate 3
        [⟨"5551234567", some 19727, some "VITAL", 2, 0, "b", "sent"⟩]) = [] ∧
      statusDateData (filterByDate 3
        [⟨"5551234567", some 19727, some "VITAL", 2, 0, "b", "sent"⟩]) = [] ∧
      messagesByCustomerData (filterByDate 3
        [⟨"5551234567", some 19727, some "VITAL", 2, 0, "b", "sent"⟩]) = [] ∧
      totalMessages (filterByCustomer "ACME"
        [⟨"5551234567", some 19727, some "VITAL", 2, 0, "b", "sent"⟩]) = [] ∧
      pivotSegments (filterByCustomer "ACME"
        [⟨"5551234567", some 19727, some "VITAL", 2, 0, "b", "sent"⟩]) = [] ∧
      totalCost (filterByCustomer "ACME"
        [⟨"5551234567", some 19727, some "VITAL", 2, 0, "b", "sent"⟩]) = [] ∧
      combinedTable (filterByCustomer "ACME"
        [⟨"5551234567", some 19727, some "VITAL", 2, 0, "b", "sent"⟩]) = []) :=
  ⟨rfl, rfl,
    empty_filter_empty_aggregates
      [⟨"5551234567", some 19727, some "VITAL", 2, 0, "b", "sent"⟩] 3 "ACME" rfl rfl⟩

/-- Claim C10 (code bug): when the `numSegments` (or `price`) column is
entirely absent, `merged_data.get(col, 0)` at lines 113/117 returns the
scalar 0, `pd.to_numeric` then returns a scalar, and the chained
`.fillna(0)` (resp. `.abs()`) raises an uncaught `AttributeError` —
normalization crashes instead of creating an all-zero column as the
`.get(..., 0)` default clearly intends. -/
theorem missing_numeric_columns_crash :
    preprocess mtnOff
        ⟨true, true, false, true, [⟨.naive 0, .str "5", .null, .num 1, "b", "sent"⟩]⟩ []
      = .error (.attributeError "fillna")
    ∧ preprocess mtnOff
        ⟨true, true, true, false, [⟨.naive 0, .str "5", .num 1, .null, "b", "sent"⟩]⟩ []
      = .error (.attributeError "abs") :=
  ⟨rfl, rfl⟩

end TwilioAnalyzer
